import Mathlib

/-!
# The wiki page tree of `controllers/wikiApi.js`

A shallow embedding of the page-tree code of `controllers/wikiApi.js`: the tree
builder `treeIterate`, the page creation `createWikiPage`, the move handler
`POST /api/wikis/wikipages/:wpid/move/:targetId` and the delete handler
`POST /api/wikis/:id/delete`, followed by the properties of the ordering engine.

Conventions of the embedding.

* A JavaScript object used as a dictionary (`pdict`, `allPages`, `nodes`) is an
  association list in enumeration order, with at most one entry per key.
* A function that takes a node-style callback returns the list of the calls it
  makes to that callback together with the store it leaves behind.
* A loop that the source does not bound takes a fuel argument and reports
  `outOfFuel` when it is used up.
* The record store (`db.wiki`, `db.wikipage`, `db.text`, `db.warp`) is a value
  of type `Store`; an SQL statement is the list operation it denotes.
-/

namespace WikiApi

/-! ## Data model -/

/-- A row of the table `wikipages`, with the columns the tree code reads or
writes. -/
structure WikiPage where
  id : String
  wiki_id : String
  parent_id : String
  content_id : String
  display_order : Int
  deriving DecidableEq

/-- A row of the table `wikis`. -/
structure Wiki where
  id : String
  content_id : String
  deriving DecidableEq

/-- A row of the table `texts`. -/
structure Text where
  id : String
  ref_id : String
  value : String
  deriving DecidableEq

/-- The record store behind `db`; `idCounter` is the state of the id generator
`next_id`. -/
structure Store where
  wikis : List Wiki
  wikipages : List WikiPage
  texts : List Text
  idCounter : Nat
  deriving DecidableEq

/-- The errors built by the module `api`. -/
inductive ApiError where
  | notFound (what : String)
  | invalidParam (name : String)
  | notAllowed (message : String)
  | resourceConflictError (message : String)
  deriving DecidableEq

/-- The ways in which evaluation of the JavaScript text itself stops. -/
inductive JsError where
  | typeError
  | referenceError
  | outOfFuel
  deriving DecidableEq

/-! ## Dictionaries -/

/-- An object used as a dictionary from page id to page. -/
abbrev PageDict := List (String × WikiPage)

/-- The lookup `d[k]`; `none` stands for `undefined`. -/
def dictGet (d : PageDict) (k : String) : Option WikiPage :=
  d.lookup k

/-- The assignment `d[k] = v`: an existing key keeps its place. -/
def dictSet : PageDict → String → WikiPage → PageDict
  | [], k, v => [(k, v)]
  | (k0, v0) :: rest, k, v =>
    if k0 = k then (k, v) :: rest else (k0, v0) :: dictSet rest k v

/-- The statement `delete d[k]`. -/
def dictDelete (d : PageDict) (k : String) : PageDict :=
  d.filter (fun e => decide (e.1 ≠ k))

/-- The keys that `for (key in xs)` enumerates for an array `xs`: the indices
as strings. -/
def arrayKeys {α : Type} (xs : List α) : List String :=
  (List.range xs.length).map toString

/-! ## Array.prototype.sort with the comparator of the source -/

/-- The comparator `function(n1, n2) { return n1.display_order <
n2.display_order ? (-1) : 1; }`, used at lines 89-91 and 569-571. -/
def compareDisplayOrder (n1 n2 : WikiPage) : Int :=
  if n1.display_order < n2.display_order then -1 else 1

/-- One step of insertion sort on the prefix sorted so far, held with its last
element first: `element` moves left past every `tmp` with
`comparefn(tmp, element) > 0`. -/
def sortInsert (comparefn : WikiPage → WikiPage → Int) (element : WikiPage) :
    List WikiPage → List WikiPage
  | [] => [element]
  | tmp :: rest =>
    if comparefn tmp element > 0 then tmp :: sortInsert comparefn element rest
    else element :: tmp :: rest

/-- The call `xs.sort(comparefn)`, as the insertion sort the engine runs on a
short array. The comparator of the source never answers 0; for pages of
pairwise different `display_order` every sorting procedure gives the same
ascending list. -/
def arraySort (comparefn : WikiPage → WikiPage → Int) (xs : List WikiPage) :
    List WikiPage :=
  (xs.foldl (fun acc element => sortInsert comparefn element acc) []).reverse

/-- The call `xs.splice(index, 0, item)` for `0 ≤ index`. -/
def arraySplice (xs : List WikiPage) (index : Nat) (item : WikiPage) : List WikiPage :=
  xs.take index ++ item :: xs.drop index

/-! ## treeIterate (lines 74-96) -/

/-- The value bound to the parameter `root` of `treeIterate`: an object with
an `id` and possibly a `children` array, or a primitive string. -/
inductive TreeRoot where
  | object (id : String) (children : Option (List WikiPage))
  | string (value : String)
  deriving DecidableEq

/-- The read `root.id`; a primitive string has no such property. -/
def TreeRoot.getId : TreeRoot → Option String
  | .object id _ => some id
  | .string _ => none

/-- The read `root.children`. -/
def TreeRoot.getChildren : TreeRoot → Option (List WikiPage)
  | .object _ children => children
  | .string _ => none

/-- The assignment `root.children = xs`; on a primitive string it has no
effect (the file is not in strict mode). -/
def TreeRoot.setChildren : TreeRoot → List WikiPage → TreeRoot
  | .object id _, xs => .object id (some xs)
  | .string value, _ => .string value

/-- The loop of lines 78-84 over the entries of `nodes`: a node whose
`parent_id` is `rid` is pushed on `root.children` and its key on `removes`.
The push throws when `root.children` is undefined. -/
def collectChildren (rid : Option String) :
    PageDict → TreeRoot → List String → Except JsError (TreeRoot × List String)
  | [], root, removes => .ok (root, removes)
  | (nid, node) :: rest, root, removes =>
    if some node.parent_id = rid then
      match root.getChildren with
      | none => .error .typeError
      | some children =>
        collectChildren rid rest (root.setChildren (children ++ [node])) (removes ++ [nid])
    else collectChildren rid rest root removes

/-- The function `treeIterate(nodes, root)`. It returns the two arguments as
the call leaves them. The loops `for (key in removes)` and
`for (ch in root.children)` run over the keys of an array, which are its
indices. -/
def treeIterate : Nat → PageDict → TreeRoot → Except JsError (PageDict × TreeRoot)
  | 0, _, _ => .error .outOfFuel
  | fuel + 1, nodes, root =>
    let rid := root.getId
    let root := root.setChildren []
    match collectChildren rid nodes root [] with
    | .error e => .error e
    | .ok (root, removes) =>
      let nodes := (arrayKeys removes).foldl dictDelete nodes
      match root.getChildren with
      | none => .error .typeError
      | some children =>
        if children.length > 0 then
          let root := root.setChildren (arraySort compareDisplayOrder children)
          match (arrayKeys children).foldlM
              (fun ns ch => (treeIterate fuel ns (.string ch)).map Prod.fst) nodes with
          | .error e => .error e
          | .ok nodes => .ok (nodes, root)
        else .ok (nodes, root)

/-- Lines 75-87 of `treeIterate`, one partition step: the children of `root`
are collected, and the loop `for (key in removes) { delete nodes[key]; }`
deletes from `nodes` the properties named by the keys of the array `removes`,
which are its indices. The result is the working map and `root` after the
step. -/
def partitionStep (nodes : PageDict) (root : TreeRoot) :
    Except JsError (PageDict × TreeRoot) :=
  let rid := root.getId
  let root := root.setChildren []
  match collectChildren rid nodes root [] with
  | .error e => .error e
  | .ok (root, removes) => .ok ((arrayKeys removes).foldl dictDelete nodes, root)

/-! ## The lookups `getWiki`, `getWikiPage` and the dictionary of `getWikiPages` -/

/-- Where evaluation of a handler stops short of its normal end: an error of
the module `api`, or a JavaScript exception (or a loop that does not end). -/
inductive Failure where
  | api (e : ApiError)
  | js (e : JsError)
  deriving DecidableEq

/-- The function `getWiki(id, callback)` (lines 36-50): what the callback
receives. -/
def getWiki (s : Store) (id : String) : Except ApiError Wiki :=
  match s.wikis.find? (fun w => decide (w.id = id)) with
  | none => .error (.notFound "Wiki")
  | some entity => .ok entity

/-- The function `getWikiPage(id, callback)` (lines 179-193): what the
callback receives. -/
def getWikiPage (s : Store) (id : String) : Except ApiError WikiPage :=
  match s.wikipages.find? (fun p => decide (p.id = id)) with
  | none => .error (.notFound "WikiPage")
  | some entity => .ok entity

/-- The query `WikiPage.findAll({ where: 'wiki_id=?', params: [wiki_id] })`
of lines 103-106. -/
def findAllPages (s : Store) (wiki_id : String) : List WikiPage :=
  s.wikipages.filter (fun p => decide (p.wiki_id = wiki_id))

/-- The dictionary `pdict` that `getWikiPages` fills at lines 110-113:
`pages.forEach(function(p) { pdict[p.id] = p; })`. The entries are kept in
the order of insertion; the order has a bearing only on how the sort places
pages of equal `display_order`. -/
def buildPageDict (pages : List WikiPage) : PageDict :=
  pages.foldl (fun pdict p => dictSet pdict p.id p) []

/-- The value `pdict` of `getWikiPages(wiki_id, true, ...)` at line 115, for
the pages of one wiki in the store. -/
def pageDictOf (s : Store) (wiki_id : String) : PageDict :=
  buildPageDict (findAllPages s wiki_id)

/-! ## createWikiPage (lines 123-176) -/

/-- The argument `wp` of `createWikiPage`, as the handler of
`POST /api/wikis/:id/wikipages` builds it (`name` is not read by this code). -/
structure NewPage where
  wiki_id : String
  parent_id : String
  content : String
  deriving DecidableEq

/-- One call of a node-style callback `callback(err, result)`. -/
inductive CallbackCall (α : Type) where
  | error (err : ApiError)
  | result (value : α)
  deriving DecidableEq

/-- The statement `select count(id) from wikipages where wiki_id=? and
parent_id=?` of line 144. -/
def countChildren (s : Store) (wiki_id parent_id : String) : Nat :=
  (s.wikipages.filter
    (fun p => decide (p.wiki_id = wiki_id) && decide (p.parent_id = parent_id))).length

/-- The inner function `doCreateWikiPage` (lines 125-163), one transaction:
two ids are drawn, the text is created, the children of the parent are
counted, the page is created with that count as `display_order`, and the
callback receives the created page. `next_id` is the id generator of `db`,
read at the counter of the store. -/
def doCreateWikiPage (next_id : Nat → String) (s : Store) (wp : NewPage) :
    Store × WikiPage :=
  let wp_id := next_id s.idCounter
  let content_id := next_id (s.idCounter + 1)
  let text : Text := { id := content_id, ref_id := wp_id, value := wp.content }
  let num := countChildren s wp.wiki_id wp.parent_id
  let page : WikiPage :=
    { id := wp_id, wiki_id := wp.wiki_id, parent_id := wp.parent_id,
      content_id := content_id, display_order := num }
  ({ s with texts := s.texts ++ [text], wikipages := s.wikipages ++ [page],
            idCounter := s.idCounter + 2 }, page)

/-- The function `createWikiPage(wp, callback)`: the store it leaves and the
calls it makes to `callback`, in order. When `wp.parent_id` is not empty the
lookup of line 165 is started, and control then falls through to the call
`doCreateWikiPage()` of line 175, which is outside the `if`. The lookup is
answered from the store as it was at the call; its callback (lines 166-172)
reports an error or calls `doCreateWikiPage()` once more. The two creations
are run one after the other, the one of line 175 first. -/
def createWikiPage (next_id : Nat → String) (s : Store) (wp : NewPage) :
    Store × List (CallbackCall WikiPage) :=
  if wp.parent_id ≠ "" then
    let lookup := getWikiPage s wp.parent_id
    let (s1, page1) := doCreateWikiPage next_id s wp
    match lookup with
    | .error err => (s1, [.error err, .result page1])
    | .ok entity =>
      if wp.wiki_id ≠ entity.wiki_id then
        (s1, [.error (.invalidParam "parent_id"), .result page1])
      else
        let (s2, page2) := doCreateWikiPage next_id s1 wp
        (s2, [.result page1, .result page2])
  else
    let (s1, page1) := doCreateWikiPage next_id s wp
    (s1, [.result page1])

/-! ## getWikiPages (lines 98-121) -/

/-- The two kinds of value that `getWikiPages` computes: the dictionary
`pdict`, or the array `proot.children` (`none` when that property is
undefined). -/
inductive PagesValue where
  | dict (pdict : PageDict)
  | forest (children : Option (List WikiPage))
  deriving DecidableEq

/-- What one call of `getWikiPages` does: the calls it makes to the callback
of its caller, in order, and what the function handed to `WikiPage.findAll`
(lines 106-120) ends with, a returned value, which `findAll` does not use,
or an exception. -/
structure GetWikiPagesRun where
  calls : List (CallbackCall PagesValue)
  returned : Except JsError PagesValue

/-- The function `getWikiPages(wiki_id, returnAsDict, callback)`;
`returnAsDict` is `none` in the call with two arguments, which lines 99-102
turn into `false`. The store of this model answers every query, so the
branch `if (err) return callback(err)` is not taken. On the answer of the
query the function fills `pdict` and then ends with `return pdict` (line 115)
or with `treeIterate(pdict, proot); return proot.children` (lines 117-119):
no statement on this path calls `callback`. -/
def getWikiPages (fuel : Nat) (s : Store) (wiki_id : String)
    (returnAsDict : Option Bool) : GetWikiPagesRun :=
  let returnAsDict := returnAsDict.getD false
  let pdict := buildPageDict (findAllPages s wiki_id)
  if returnAsDict then { calls := [], returned := .ok (.dict pdict) }
  else
    match treeIterate fuel pdict (.object "" none) with
    | .error e => { calls := [], returned := .error e }
    | .ok (_, proot) => { calls := [], returned := .ok (.forest proot.getChildren) }

/-- The value `all` as the object that lines 539-565 index and enumerate: a
dictionary is itself, an array has its indices as keys. -/
def PagesValue.asObject : PagesValue → PageDict
  | .dict pdict => pdict
  | .forest none => []
  | .forest (some children) => (arrayKeys children).zip children

/-! ## The move handler `POST /api/wikis/wikipages/:wpid/move/:targetId`
(lines 491-593) -/

/-- How a request handler ends: `next(err)`, `res.send(body)`, or an
exception thrown out of the handler code. -/
inductive Response (α : Type) where
  | next (err : ApiError)
  | send (body : α)
  | threw (e : JsError)
  deriving DecidableEq

/-- Lines 497-511: the permission check (`forbidden` is the answer of
`utils.isForbidden`) and the test `isNaN(index) || index < 0` on the parsed
parameter; `none` is the `NaN` that `parseInt` returns. -/
def moveParams (forbidden : Bool) (index : Option Int) : Except ApiError Int :=
  if forbidden then .error (.notAllowed "Permission denied.")
  else
    match index with
    | none => .error (.invalidParam "index")
    | some i => if i < 0 then .error (.invalidParam "index") else .ok i

/-- Lines 515-535, the first four steps of the waterfall: the moving page, its
wiki, the target page (`null` for `ROOT`) and the test that the target is a
page of the same wiki. -/
def moveLookups (s : Store) (wpid targetId : String) :
    Except ApiError (Wiki × WikiPage × Option WikiPage) :=
  match getWikiPage s wpid with
  | .error e => .error e
  | .ok movingPage =>
    match getWiki s movingPage.wiki_id with
    | .error e => .error e
    | .ok wiki =>
      if targetId = "ROOT" then .ok (wiki, movingPage, none)
      else
        match getWikiPage s targetId with
        | .error e => .error e
        | .ok parentPage =>
          if parentPage.wiki_id ≠ wiki.id then .error (.invalidParam "targetId")
          else .ok (wiki, movingPage, some parentPage)

/-- The loop of lines 544-549: `while (p.parent_id !== '') { if
(p.parent_id===movingPage.id) return callback(conflict); p =
allPages[p.parent_id]; }`. When the lookup gives `undefined` the next test
of the loop reads a property of `undefined` and throws. -/
def recursiveWalk : Nat → PageDict → WikiPage → WikiPage → Except Failure Unit
  | 0, _, _, _ => .error (.js .outOfFuel)
  | fuel + 1, allPages, movingPage, p =>
    if p.parent_id ≠ "" then
      if p.parent_id = movingPage.id then
        .error (.api (.resourceConflictError "Will cause recursive."))
      else
        match dictGet allPages p.parent_id with
        | none => .error (.js .typeError)
        | some q => recursiveWalk fuel allPages movingPage q
    else .ok ()

/-- Lines 539-553, the last step of the waterfall: the walk is made only for
a target other than `ROOT`, and it starts at the target page. -/
def recursiveCheck (fuel : Nat) (allPages : PageDict) (movingPage : WikiPage)
    (parentPage : Option WikiPage) : Except Failure Unit :=
  match parentPage with
  | none => .ok ()
  | some p => recursiveWalk fuel allPages movingPage p

/-- Line 559: `parentPage===null ? '' : parentPage.id`. -/
def targetParentId (parentPage : Option WikiPage) : String :=
  match parentPage with
  | none => ""
  | some p => p.id

/-- Lines 560-565: the pages of `allPages` whose `parent_id` is `parentId`,
the moving page left out. -/
def currentChildren (allPages : PageDict) (parentId : String) (movingPage : WikiPage) :
    List WikiPage :=
  (allPages.map Prod.snd).filter
    (fun p => decide (p.parent_id = parentId) && decide (p.id ≠ movingPage.id))

/-- Lines 559-572: the list `L` after the bound test `index > L.length`, the
sort and the splice. -/
def moveList (allPages : PageDict) (movingPage : WikiPage) (parentPage : Option WikiPage)
    (index : Int) : Except ApiError (List WikiPage) :=
  let L := currentChildren allPages (targetParentId parentPage) movingPage
  if index > (L.length : Int) then .error (.invalidParam "index")
  else .ok (arraySplice (arraySort compareDisplayOrder L) index.toNat movingPage)

/-- What the handler has settled when it opens its transaction. -/
structure MovePlan where
  movingPage : WikiPage
  parentId : String
  L : List WikiPage
  deriving DecidableEq

/-- The handler from line 497 to line 572: parameter test, lookups, recursion
check and the list `L`. `allPages` is the value that the step of line 539
receives as `all`. -/
def moveValidate (fuel : Nat) (s : Store) (forbidden : Bool) (wpid targetId : String)
    (index : Option Int) (allPages : PageDict) : Except Failure MovePlan :=
  match moveParams forbidden index with
  | .error e => .error (.api e)
  | .ok index =>
    match moveLookups s wpid targetId with
    | .error e => .error (.api e)
    | .ok (_, movingPage, parentPage) =>
      match recursiveCheck fuel allPages movingPage parentPage with
      | .error e => .error e
      | .ok _ =>
        match moveList allPages movingPage parentPage index with
        | .error e => .error (.api e)
        | .ok L => .ok { movingPage := movingPage, parentId := targetParentId parentPage, L := L }

/-- The parameter lists `[index, p.id]` that the loop of lines 576-578 forms
for the pages of `L`. -/
def rankUpdates (L : List WikiPage) : List (Int × String) :=
  L.enum.map (fun e => ((e.1 : Int), e.2.id))

/-- Lines 574-591 as they run. In the loop body of line 577 the name
`callback` is bound in no enclosing scope (the parameters there are `p`,
`index`, `err`, `tx`, `r`, `req`, `res`, `next`), so evaluating the argument
list of `warp.update` for the first page of `L` throws a ReferenceError
before any statement reaches the store. For an empty `L` the loop does
nothing and the call `async.serial` is a call of `undefined`: the library
has `series`, not `serial`. In both cases `tx.done` is never called. -/
def moveTransaction (s : Store) (plan : MovePlan) : Store × Response WikiPage :=
  match plan.L with
  | _ :: _ => (s, .threw .referenceError)
  | [] => (s, .threw .typeError)

/-- The handler from line 497 to its end, with the value `all` of line 539
given as `allPages`. -/
def moveHandler (fuel : Nat) (s : Store) (forbidden : Bool) (wpid targetId : String)
    (index : Option Int) (allPages : PageDict) : Store × Response WikiPage :=
  match moveValidate fuel s forbidden wpid targetId index allPages with
  | .error (.api e) => (s, .next e)
  | .error (.js e) => (s, .threw e)
  | .ok plan => moveTransaction s plan

/-- The whole handler, lines 497-592. After the lookups the step of lines
536-538 calls `getWikiPages(wiki.id, true, callback)` with the callback of
the waterfall; the step of line 539 and the final function of line 554 run
only when that callback is called. `none` says that the handler calls
neither `next` nor `res.send`. -/
def moveRequest (fuel : Nat) (s : Store) (forbidden : Bool) (wpid targetId : String)
    (index : Option Int) : Store × Option (Response WikiPage) :=
  match moveParams forbidden index with
  | .error e => (s, some (.next e))
  | .ok _ =>
    match moveLookups s wpid targetId with
    | .error e => (s, some (.next e))
    | .ok (wiki, _, _) =>
      match (getWikiPages fuel s wiki.id (some true)).calls.head? with
      | none => (s, none)
      | some (.error e) => (s, some (.next e))
      | some (.result all) =>
        let r := moveHandler fuel s forbidden wpid targetId index all.asObject
        (r.1, some r.2)

/-! ## The delete handler `POST /api/wikis/:id/delete` (lines 595-648) -/

/-- The query `WikiPage.findNumber({ select: 'count(id)', where: 'wiki_id=?'
})` of lines 618-622. -/
def countPages (s : Store) (wiki_id : String) : Nat :=
  (s.wikipages.filter (fun p => decide (p.wiki_id = wiki_id))).length

/-- The handler: permission check, lookup of the wiki, page count, then
`wiki.destroy` and `delete from texts where ref_id=?` with the id of the
request. An error ends the transaction without a write and goes to `next`;
otherwise the body `{ id: req.params.id }` is sent. -/
def deleteWiki (s : Store) (forbidden : Bool) (id : String) : Store × Response String :=
  if forbidden then (s, .next (.notAllowed "Permission denied."))
  else
    match s.wikis.find? (fun w => decide (w.id = id)) with
    | none => (s, .next (.notFound "Wiki"))
    | some wiki =>
      if countPages s wiki.id > 0 then
        (s, .next (.resourceConflictError "Wiki is not empty."))
      else
        ({ s with wikis := s.wikis.filter (fun w => decide (w.id ≠ wiki.id)),
                  texts := s.texts.filter (fun t => decide (t.ref_id ≠ id)) },
         .send id)

/-! ## Properties of a set of pages -/

/-- The sibling group of a (wiki, parent) pair. -/
def siblingGroup (pages : List WikiPage) (wiki_id parent_id : String) : List WikiPage :=
  pages.filter (fun p => decide (p.wiki_id = wiki_id) && decide (p.parent_id = parent_id))

/-- Rank density of one sibling group: its ranks are 0, 1, ..., n-1, each
once, in some order. -/
def DenseGroup (pages : List WikiPage) (wiki_id parent_id : String) : Prop :=
  ((siblingGroup pages wiki_id parent_id).map (fun p => p.display_order)).Perm
    ((List.range (siblingGroup pages wiki_id parent_id).length).map Int.ofNat)

/-- Rank density of every sibling group that has a page (a group without
pages is dense). -/
def AllDense (pages : List WikiPage) : Prop :=
  ∀ p ∈ pages, DenseGroup pages p.wiki_id p.parent_id

/-- The page that the parent link of `p` leads to in the dictionary; `none`
at the root sentinel and at a dangling link. -/
def parentIn (allPages : PageDict) (p : WikiPage) : Option WikiPage :=
  if p.parent_id = "" then none else dictGet allPages p.parent_id

/-- The page reached from `p` by `n` parent links. -/
def nthAncestor (allPages : PageDict) : Nat → WikiPage → Option WikiPage
  | 0, p => some p
  | n + 1, p => (parentIn allPages p).bind (nthAncestor allPages n)

/-- The parent chain of the page with id `id` reaches the root sentinel in at
most `n` links. -/
def reachesRoot (pages : List WikiPage) : Nat → String → Bool
  | 0, id => decide (id = "")
  | n + 1, id =>
    if id = "" then true
    else
      match pages.find? (fun p => decide (p.id = id)) with
      | none => false
      | some p => reachesRoot pages n p.parent_id

/-- No cycles: the parent chain of every page reaches the root sentinel in at
most as many links as there are pages. -/
def NoCycles (pages : List WikiPage) : Prop :=
  ∀ p ∈ pages, reachesRoot pages pages.length p.id = true

/-- Every entry of the dictionary is filed under the id of its page, as in a
dictionary filled by `pdict[p.id] = p`. -/
def WellKeyed (d : PageDict) : Prop :=
  ∀ e ∈ d, e.2.id = e.1

instance (d : PageDict) : Decidable (WellKeyed d) := by
  unfold WellKeyed; infer_instance

instance (pages : List WikiPage) (wiki_id parent_id : String) :
    Decidable (DenseGroup pages wiki_id parent_id) := by
  unfold DenseGroup; infer_instance

instance (pages : List WikiPage) : Decidable (AllDense pages) := by
  unfold AllDense; infer_instance

instance (pages : List WikiPage) : Decidable (NoCycles pages) := by
  unfold NoCycles; infer_instance

/-! ## Example stores -/

/-- An id generator for the examples. -/
def exampleNextId (n : Nat) : String := "id" ++ toString n

/-- Root page A of wiki `w`, rank 0. -/
def pageA : WikiPage :=
  { id := "A", wiki_id := "w", parent_id := "", content_id := "cA", display_order := 0 }

/-- Root page B of wiki `w`, rank 1. -/
def pageB : WikiPage :=
  { id := "B", wiki_id := "w", parent_id := "", content_id := "cB", display_order := 1 }

/-- Root page C of wiki `w`, rank 2. -/
def pageC : WikiPage :=
  { id := "C", wiki_id := "w", parent_id := "", content_id := "cC", display_order := 2 }

/-- Wiki `w` with the root pages A(0), B(1), C(2). -/
def storeABC : Store :=
  { wikis := [{ id := "w", content_id := "cw" }],
    wikipages := [pageA, pageB, pageC],
    texts := [{ id := "cw", ref_id := "w", value := "home" }],
    idCounter := 0 }

/-- Page B as the only child of A. -/
def chainB : WikiPage :=
  { id := "B", wiki_id := "w", parent_id := "A", content_id := "cB", display_order := 0 }

/-- Page C as the only child of B. -/
def chainC : WikiPage :=
  { id := "C", wiki_id := "w", parent_id := "B", content_id := "cC", display_order := 0 }

/-- Wiki `w` with A parent of B parent of C. -/
def storeChain : Store :=
  { wikis := [{ id := "w", content_id := "cw" }],
    wikipages := [pageA, chainB, chainC],
    texts := [],
    idCounter := 0 }

/-- Wiki `w` with the single root page A. -/
def storeSingle : Store :=
  { wikis := [{ id := "w", content_id := "cw" }],
    wikipages := [pageA],
    texts := [],
    idCounter := 0 }

/-- Wiki `w` without pages, its text and a text of another owner. -/
def storeNoPages : Store :=
  { wikis := [{ id := "w", content_id := "cw" }],
    wikipages := [],
    texts := [{ id := "cw", ref_id := "w", value := "home" },
              { id := "cz", ref_id := "z", value := "other" }],
    idCounter := 0 }

/-! # Theorems -/

/-! ## treeIterate -/

theorem collectChildren_string (ns : PageDict) (s : String) (removes : List String) :
    collectChildren none ns (.string s) removes = .ok (.string s, removes) := by
  induction ns with
  | nil => rfl
  | cons e rest ih =>
    obtain ⟨nid, node⟩ := e
    simp [collectChildren, ih]

/-- A call of `treeIterate` whose `root` is a primitive string throws: nothing
is collected, and `root.children.length` reads a property of `undefined`. -/
theorem treeIterate_string (fuel : Nat) (ns : PageDict) (s : String) :
    treeIterate (fuel + 1) ns (.string s) = .error .typeError := by
  simp [treeIterate, TreeRoot.getId, TreeRoot.setChildren, collectChildren_string,
    TreeRoot.getChildren]

theorem collectChildren_object (rid : String) (ns : PageDict) (cs : List WikiPage)
    (removes : List String) :
    collectChildren (some rid) ns (.object rid (some cs)) removes
      = .ok (.object rid
            (some (cs ++ (ns.filter (fun e => decide (e.2.parent_id = rid))).map Prod.snd)),
          removes ++ (ns.filter (fun e => decide (e.2.parent_id = rid))).map Prod.fst) := by
  induction ns generalizing cs removes with
  | nil => simp [collectChildren]
  | cons e rest ih =>
    obtain ⟨nid, node⟩ := e
    by_cases h : node.parent_id = rid
    · simp [collectChildren, h, TreeRoot.getChildren, TreeRoot.setChildren, ih]
    · simp [collectChildren, h, ih]

theorem arrayKeys_cons {α : Type} (x : α) (xs : List α) :
    ∃ ks, arrayKeys (x :: xs) = "0" :: ks := by
  refine ⟨(List.range xs.length).map (fun i => toString (i + 1)), ?_⟩
  simp [arrayKeys, List.range_succ_eq_map]
  rfl

/-- C1: `treeIterate` does not build the forest of the claim. Whenever at least
one page has the id of `root` as its `parent_id`, the call on the object
`root` throws a TypeError: the loop `for (ch in root.children)` hands the
array index, a string, to the recursive call, so no child ever gets a
`children` list and the call does not return. -/
theorem treeIterate_throws_of_child (fuel : Nat) (nodes : PageDict) (rid : String)
    (c : Option (List WikiPage)) (h : ∃ e ∈ nodes, e.2.parent_id = rid) :
    treeIterate (fuel + 2) nodes (.object rid c) = .error .typeError := by
  obtain ⟨e, he, hp⟩ := h
  have hne : (nodes.filter (fun e => decide (e.2.parent_id = rid))).map Prod.snd ≠ [] := by
    intro h0
    have hmem : e ∈ nodes.filter (fun e => decide (e.2.parent_id = rid)) := by
      simp [List.mem_filter, he, hp]
    rw [List.map_eq_nil_iff] at h0
    rw [h0] at hmem
    simp at hmem
  rw [treeIterate]
  simp only [TreeRoot.getId, TreeRoot.setChildren]
  have hcollect := collectChildren_object rid nodes [] []
  simp only [List.nil_append] at hcollect
  rw [hcollect]
  simp only [TreeRoot.getChildren]
  cases hc : (nodes.filter (fun e => decide (e.2.parent_id = rid))).map Prod.snd with
  | nil => exact absurd hc hne
  | cons x xs =>
    obtain ⟨ks, hks⟩ := arrayKeys_cons x xs
    simp [hks, List.foldlM, treeIterate_string, Except.map, bind, Except.bind]

/-- The call of `getWikiPages` on a wiki with the single root page A: the
tree builder throws instead of returning the forest with the one node A. -/
theorem treeIterate_throws_of_child_witness :
    (∃ e ∈ [("A", pageA)], e.2.parent_id = "")
      ∧ treeIterate 2 [("A", pageA)] (.object "" none) = .error .typeError :=
  ⟨⟨("A", pageA), by simp, rfl⟩,
    treeIterate_throws_of_child 0 [("A", pageA)] "" none ⟨("A", pageA), by simp, rfl⟩⟩

/-- Without a page under `root` the call returns the empty list of children
and leaves the dictionary as it was. -/
theorem treeIterate_no_child (fuel : Nat) (nodes : PageDict) (rid : String)
    (c : Option (List WikiPage)) (h : ∀ e ∈ nodes, e.2.parent_id ≠ rid) :
    treeIterate (fuel + 1) nodes (.object rid c) = .ok (nodes, .object rid (some [])) := by
  have hnil : nodes.filter (fun e => decide (e.2.parent_id = rid)) = [] := by
    rw [List.filter_eq_nil_iff]
    intro e he
    simpa using h e he
  rw [treeIterate]
  simp only [TreeRoot.getId, TreeRoot.setChildren]
  have hcollect := collectChildren_object rid nodes [] []
  simp only [List.nil_append] at hcollect
  rw [hcollect, hnil]
  simp [TreeRoot.getChildren, arrayKeys]

/-! ## The move handler: what runs -/

/-- The move handler never writes to the store, whatever the request. -/
theorem moveHandler_store (fuel : Nat) (s : Store) (forbidden : Bool) (wpid targetId : String)
    (index : Option Int) (allPages : PageDict) :
    (moveHandler fuel s forbidden wpid targetId index allPages).1 = s := by
  unfold moveHandler
  split
  · rfl
  · rfl
  · unfold moveTransaction
    split <;> rfl

/-- C2: on the example of the claim (root pages A(0), B(1), C(2), C moved to
ROOT at index 0) the handler forms the list L = C, A, B and the parameter
lists (0, C), (1, A), (2, B) as the claim says, but it writes none of these
ranks: the statement of line 577 names an unbound `callback`, the handler
stops with a ReferenceError and the store is left as it was. -/
theorem moveHandler_root_example :
    moveValidate 1 storeABC false "C" "ROOT" (some 0) (pageDictOf storeABC "w")
        = .ok { movingPage := pageC, parentId := "", L := [pageC, pageA, pageB] }
      ∧ rankUpdates [pageC, pageA, pageB] = [(0, "C"), (1, "A"), (2, "B")]
      ∧ moveHandler 1 storeABC false "C" "ROOT" (some 0) (pageDictOf storeABC "w")
        = (storeABC, .threw .referenceError) :=
  ⟨rfl, rfl, rfl⟩

/-! ## Sorting, splicing and the page dictionary -/

theorem sortInsert_perm (cmp : WikiPage → WikiPage → Int) (e : WikiPage) (l : List WikiPage) :
    (sortInsert cmp e l).Perm (e :: l) := by
  induction l with
  | nil => simp [sortInsert]
  | cons tmp rest ih =>
    simp only [sortInsert]
    split
    · exact (List.Perm.cons tmp ih).trans (List.Perm.swap e tmp rest)
    · exact List.Perm.refl _

theorem sortFold_perm (cmp : WikiPage → WikiPage → Int) (xs acc : List WikiPage) :
    (xs.foldl (fun acc element => sortInsert cmp element acc) acc).Perm (xs ++ acc) := by
  induction xs generalizing acc with
  | nil => simp
  | cons x xs ih =>
    simp only [List.foldl_cons]
    refine (ih _).trans ?_
    refine (List.Perm.append_left xs (sortInsert_perm cmp x acc)).trans ?_
    simp [List.perm_middle]

theorem arraySort_perm (cmp : WikiPage → WikiPage → Int) (xs : List WikiPage) :
    (arraySort cmp xs).Perm xs := by
  unfold arraySort
  refine (List.reverse_perm _).trans ?_
  simpa using sortFold_perm cmp xs []

theorem arraySplice_perm (xs : List WikiPage) (i : Nat) (x : WikiPage) :
    (arraySplice xs i x).Perm (x :: xs) := by
  unfold arraySplice
  refine List.perm_middle.trans ?_
  rw [List.take_append_drop]

theorem dictSet_append (d : PageDict) (k : String) (v : WikiPage)
    (h : k ∉ d.map Prod.fst) : dictSet d k v = d ++ [(k, v)] := by
  induction d with
  | nil => rfl
  | cons e rest ih =>
    obtain ⟨k0, v0⟩ := e
    simp only [List.map_cons, List.mem_cons, not_or] at h
    have hne : ¬ k0 = k := fun h' => h.1 h'.symm
    simp [dictSet, hne, ih h.2]

theorem buildFold_eq (ps : List WikiPage) (acc : List WikiPage)
    (h : ((acc ++ ps).map (fun p => p.id)).Nodup) :
    ps.foldl (fun pdict p => dictSet pdict p.id p) (acc.map (fun p => (p.id, p)))
      = (acc ++ ps).map (fun p => (p.id, p)) := by
  induction ps generalizing acc with
  | nil => simp
  | cons p ps ih =>
    simp only [List.foldl_cons]
    have hnot : p.id ∉ (acc.map (fun p => (p.id, p))).map Prod.fst := by
      simp only [List.map_map]
      intro hmem
      rw [List.map_append, List.nodup_append] at h
      exact h.2.2 hmem (by simp)
    rw [dictSet_append _ _ _ hnot]
    have := ih (acc ++ [p]) (by simpa using h)
    simpa using this

theorem buildPageDict_eq (ps : List WikiPage) (h : (ps.map (fun p => p.id)).Nodup) :
    buildPageDict ps = ps.map (fun p => (p.id, p)) := by
  have := buildFold_eq ps [] (by simpa using h)
  simpa [buildPageDict] using this

/-! ## The stages of the move handler -/

theorem filter_id_eq_singleton (pages : List WikiPage) (x : WikiPage)
    (hnd : (pages.map (fun p => p.id)).Nodup) (hx : x ∈ pages) :
    pages.filter (fun p => decide (p.id = x.id)) = [x] := by
  induction pages with
  | nil => simp at hx
  | cons y ys ih =>
    simp only [List.map_cons, List.nodup_cons] at hnd
    rcases List.mem_cons.mp hx with rfl | hmem
    · have : ys.filter (fun p => decide (p.id = x.id)) = [] := by
        rw [List.filter_eq_nil_iff]
        intro p hp hpid
        apply hnd.1
        have : p.id = x.id := by simpa using hpid
        rw [← this]
        exact List.mem_map.mpr ⟨p, hp, rfl⟩
      simp [List.filter_cons, this]
    · have hne : ¬ y.id = x.id := by
        intro h
        apply hnd.1
        rw [h]
        exact List.mem_map.mpr ⟨x, hmem, rfl⟩
      simp [List.filter_cons, hne, ih hnd.2 hmem]

theorem getWikiPage_ok {s : Store} {id : String} {p : WikiPage}
    (h : getWikiPage s id = .ok p) : p ∈ s.wikipages ∧ p.id = id := by
  unfold getWikiPage at h
  cases hf : s.wikipages.find? (fun p => decide (p.id = id)) with
  | none => simp [hf] at h
  | some e =>
    simp only [hf, Except.ok.injEq] at h
    subst h
    exact ⟨List.mem_of_find?_eq_some hf, by simpa using List.find?_some hf⟩

theorem moveLookups_moving {s : Store} {wpid targetId : String} {wiki : Wiki}
    {mp : WikiPage} {pp : Option WikiPage}
    (h : moveLookups s wpid targetId = .ok (wiki, mp, pp)) :
    getWikiPage s wpid = .ok mp := by
  unfold moveLookups at h
  cases h1 : getWikiPage s wpid with
  | error e => simp [h1] at h
  | ok m =>
    simp only [h1] at h
    cases h2 : getWiki s m.wiki_id with
    | error e => simp [h2] at h
    | ok w =>
      simp only [h2] at h
      by_cases ht : targetId = "ROOT"
      · simp only [ht, if_true, Except.ok.injEq, Prod.mk.injEq] at h
        rw [h.2.1]
      · simp only [ht, if_false] at h
        cases h3 : getWikiPage s targetId with
        | error e => simp [h3] at h
        | ok t =>
          simp only [h3] at h
          split at h
          · cases h
          · simp only [Except.ok.injEq, Prod.mk.injEq] at h
            rw [h.2.1]

theorem moveValidate_ok {fuel : Nat} {s : Store} {forbidden : Bool} {wpid targetId : String}
    {index : Option Int} {allPages : PageDict} {plan : MovePlan}
    (h : moveValidate fuel s forbidden wpid targetId index allPages = .ok plan) :
    ∃ (i : Int) (wiki : Wiki) (pp : Option WikiPage),
      moveParams forbidden index = .ok i
      ∧ moveLookups s wpid targetId = .ok (wiki, plan.movingPage, pp)
      ∧ recursiveCheck fuel allPages plan.movingPage pp = .ok ()
      ∧ moveList allPages plan.movingPage pp i = .ok plan.L
      ∧ plan.parentId = targetParentId pp := by
  unfold moveValidate at h
  cases h1 : moveParams forbidden index with
  | error e => simp [h1] at h
  | ok i =>
    simp only [h1] at h
    cases h2 : moveLookups s wpid targetId with
    | error e => simp [h2] at h
    | ok r =>
      obtain ⟨wiki, mp, pp⟩ := r
      simp only [h2] at h
      cases h3 : recursiveCheck fuel allPages mp pp with
      | error e => simp [h3] at h
      | ok u =>
        simp only [h3] at h
        cases h4 : moveList allPages mp pp i with
        | error e => simp [h4] at h
        | ok L =>
          simp only [h4, Except.ok.injEq] at h
          subst h
          exact ⟨i, wiki, pp, rfl, rfl, h3, h4, rfl⟩

theorem moveList_ok {allPages : PageDict} {mp : WikiPage} {pp : Option WikiPage} {i : Int}
    {L : List WikiPage} (h : moveList allPages mp pp i = .ok L) :
    L = arraySplice (arraySort compareDisplayOrder
          (currentChildren allPages (targetParentId pp) mp)) i.toNat mp
      ∧ i ≤ ((currentChildren allPages (targetParentId pp) mp).length : Int) := by
  unfold moveList at h
  simp only at h
  split at h
  · cases h
  · simp only [Except.ok.injEq] at h
    exact ⟨h.symm, by omega⟩

theorem pageDictOf_values (s : Store) (w : String)
    (hids : (s.wikipages.map (fun p => p.id)).Nodup) :
    (pageDictOf s w).map Prod.snd = s.wikipages.filter (fun p => decide (p.wiki_id = w)) := by
  unfold pageDictOf findAllPages
  rw [buildPageDict_eq]
  · rw [List.map_map]
    exact List.map_id'' (fun p => rfl) _
  · exact hids.sublist ((List.filter_sublist _).map _)

theorem sortInsert_desc (e : WikiPage) (acc : List WikiPage)
    (h : acc.Pairwise (fun a b => b.display_order ≤ a.display_order)) :
    (sortInsert compareDisplayOrder e acc).Pairwise
      (fun a b => b.display_order ≤ a.display_order) := by
  induction acc with
  | nil => simp [sortInsert]
  | cons tmp rest ih =>
    rw [List.pairwise_cons] at h
    simp only [sortInsert, compareDisplayOrder]
    by_cases hlt : tmp.display_order < e.display_order
    · simp only [hlt, if_true]
      have hneg : ¬ ((-1 : Int) > 0) := by decide
      rw [if_neg hneg, List.pairwise_cons, List.pairwise_cons]
      refine ⟨?_, h⟩
      intro b hb
      rcases List.mem_cons.mp hb with rfl | hb
      · omega
      · have := h.1 b hb
        omega
    · simp only [hlt, if_false]
      have hpos : ((1 : Int) > 0) := by decide
      rw [if_pos hpos, List.pairwise_cons]
      refine ⟨?_, ih h.2⟩
      intro b hb
      have hb' := (sortInsert_perm compareDisplayOrder e rest).subset hb
      rcases List.mem_cons.mp hb' with rfl | hb'
      · omega
      · exact h.1 b hb'

theorem sortFold_desc (xs acc : List WikiPage)
    (h : acc.Pairwise (fun a b => b.display_order ≤ a.display_order)) :
    (xs.foldl (fun acc element => sortInsert compareDisplayOrder element acc) acc).Pairwise
      (fun a b => b.display_order ≤ a.display_order) := by
  induction xs generalizing acc with
  | nil => simpa using h
  | cons x xs ih => exact ih _ (sortInsert_desc x acc h)

/-- The sort of the source puts the pages in ascending `display_order`. -/
theorem arraySort_sorted (xs : List WikiPage) :
    (arraySort compareDisplayOrder xs).Pairwise
      (fun a b => a.display_order ≤ b.display_order) := by
  unfold arraySort
  rw [List.pairwise_reverse]
  exact sortFold_desc xs [] List.Pairwise.nil

theorem rankUpdates_getElem (L : List WikiPage) (i : Nat) (h : i < L.length) :
    (rankUpdates L)[i]? = some ((i : Int), L[i].id) := by
  unfold rankUpdates
  simp [List.enum, List.getElem?_enumFrom, h]

/-- The list of the move handler for an index within the bound: the other
children of the target in ascending `display_order`, the moving page put in
at position `index`, and for every page of the list the parameters (position,
id) of its rank update. -/
theorem moveList_spec (allPages : PageDict) (movingPage : WikiPage)
    (parentPage : Option WikiPage) (index : Int) (hlo : 0 ≤ index)
    (hhi : index ≤ ((currentChildren allPages (targetParentId parentPage) movingPage).length : Int)) :
    ∃ (sorted L : List WikiPage),
      moveList allPages movingPage parentPage index = .ok L
      ∧ sorted.Perm (currentChildren allPages (targetParentId parentPage) movingPage)
      ∧ sorted.Pairwise (fun a b => a.display_order ≤ b.display_order)
      ∧ L = sorted.take index.toNat ++ movingPage :: sorted.drop index.toNat
      ∧ L[index.toNat]? = some movingPage
      ∧ ∀ i (h : i < L.length), (rankUpdates L)[i]? = some ((i : Int), L[i].id) := by
  refine ⟨arraySort compareDisplayOrder
      (currentChildren allPages (targetParentId parentPage) movingPage), _, ?_,
    arraySort_perm _ _, arraySort_sorted _, rfl, ?_, fun i h => rankUpdates_getElem _ i h⟩
  · have hnot : ¬ index > ((currentChildren allPages (targetParentId parentPage)
        movingPage).length : Int) := by omega
    simp only [moveList, hnot, if_false, arraySplice]
  · have hlen : (arraySort compareDisplayOrder
        (currentChildren allPages (targetParentId parentPage) movingPage)).length
        = (currentChildren allPages (targetParentId parentPage) movingPage).length :=
      (arraySort_perm _ _).length_eq
    have hle : index.toNat ≤ (arraySort compareDisplayOrder
        (currentChildren allPages (targetParentId parentPage) movingPage)).length := by
      rw [hlen]; omega
    rw [List.getElem?_append_right (by simp [List.length_take, hle])]
    simp [List.length_take, hle]

theorem eq_of_id_eq {pages : List WikiPage} (hnd : (pages.map (fun p => p.id)).Nodup)
    {p q : WikiPage} (hp : p ∈ pages) (hq : q ∈ pages) (h : p.id = q.id) : p = q := by
  have hsing := filter_id_eq_singleton pages q hnd hq
  have hmem : p ∈ pages.filter (fun x => decide (x.id = q.id)) := by
    simp [List.mem_filter, hp, h]
  rw [hsing] at hmem
  simpa using hmem

theorem denseGroup_of_allDense {pages : List WikiPage} (h : AllDense pages)
    (w par : String) : DenseGroup pages w par := by
  cases hg : siblingGroup pages w par with
  | nil => simp [DenseGroup, hg]
  | cons p rest =>
    have hp : p ∈ siblingGroup pages w par := by rw [hg]; exact List.mem_cons_self _ _
    unfold siblingGroup at hp
    obtain ⟨hpm, hpP⟩ := List.mem_filter.mp hp
    simp only [Bool.and_eq_true, decide_eq_true_eq] at hpP
    have := h p hpm
    rw [hpP.1, hpP.2] at this
    exact this

/-! ## The recursion check -/

theorem dictGet_id {d : PageDict} (h : WellKeyed d) :
    ∀ k v, dictGet d k = some v → v.id = k := by
  induction d with
  | nil => intro k v hv; simp [dictGet] at hv
  | cons e rest ih =>
    intro k v hv
    obtain ⟨k0, v0⟩ := e
    simp only [dictGet, List.lookup] at hv
    by_cases hk : k = k0
    · subst hk
      simp at hv
      subst hv
      exact h (k, v0) (by simp)
    · have hb : (k == k0) = false := by simpa using hk
      rw [hb] at hv
      exact ih (fun e he => h e (List.mem_cons_of_mem _ he)) k v hv

theorem nthAncestor_succ_some {allPages : PageDict} {n : Nat} {p m : WikiPage}
    (h : nthAncestor allPages (n + 1) p = some m) :
    p.parent_id ≠ ""
      ∧ ∃ q, dictGet allPages p.parent_id = some q ∧ nthAncestor allPages n q = some m := by
  simp only [nthAncestor, parentIn] at h
  by_cases hp : p.parent_id = ""
  · simp [hp] at h
  · simp only [hp, if_false] at h
    refine ⟨hp, ?_⟩
    cases hq : dictGet allPages p.parent_id with
    | none => simp [hq] at h
    | some q => exact ⟨q, rfl, by simpa [hq] using h⟩

/-- The walk of the recursion check stops with the conflict when the moving
page is reached from `p` by `n + 1` parent links, given more than `n` units
of fuel. -/
theorem recursiveWalk_conflict (allPages : PageDict) (movingPage : WikiPage)
    (hkeys : ∀ k v, dictGet allPages k = some v → v.id = k) :
    ∀ (n fuel : Nat) (p m : WikiPage), nthAncestor allPages (n + 1) p = some m →
      m.id = movingPage.id → n < fuel →
      recursiveWalk fuel allPages movingPage p
        = .error (.api (.resourceConflictError "Will cause recursive.")) := by
  intro n
  induction n with
  | zero =>
    intro fuel p m h hm hf
    obtain ⟨hp, q, hq, hn⟩ := nthAncestor_succ_some h
    simp only [nthAncestor, Option.some.injEq] at hn
    subst hn
    have hk := hkeys _ _ hq
    obtain ⟨f, rfl⟩ : ∃ f, fuel = f + 1 := ⟨fuel - 1, by omega⟩
    have hpm : p.parent_id = movingPage.id := by rw [← hk, hm]
    rw [hpm] at hp
    simp [recursiveWalk, hp, hpm]
  | succ n ih =>
    intro fuel p m h hm hf
    obtain ⟨hp, q, hq, hn⟩ := nthAncestor_succ_some h
    obtain ⟨f, rfl⟩ : ∃ f, fuel = f + 1 := ⟨fuel - 1, by omega⟩
    by_cases hc : p.parent_id = movingPage.id
    · rw [hc] at hp
      simp [recursiveWalk, hp, hc]
    · simp only [recursiveWalk, hp, hc, ne_eq, not_false_eq_true, if_true, if_false, hq]
      exact ih f q m hn hm (by omega)

/-- The recursion check as written, for a flat page map handed to the step of
line 539: when the moving page is a proper ancestor of the proposed parent
(it is reached from the parent by `n + 1` parent links of the map), the walk
ends, with no more than `n + 1` turns of its loop and without a lookup of a
missing id, in the resource conflict 'Will cause recursive.', and the rest of
the handler passes that error to `next` and leaves the store as it was. -/
theorem move_under_descendant_rejected (s : Store) (wpid targetId : String) (index : Int)
    (allPages : PageDict) (wiki : Wiki) (movingPage parentPage m : WikiPage) (n fuel : Nat)
    (hkeys : WellKeyed allPages)
    (hlook : moveLookups s wpid targetId = .ok (wiki, movingPage, some parentPage))
    (hanc : nthAncestor allPages (n + 1) parentPage = some m)
    (hm : m.id = movingPage.id)
    (hindex : 0 ≤ index)
    (hfuel : n < fuel) :
    recursiveCheck fuel allPages movingPage (some parentPage)
        = .error (.api (.resourceConflictError "Will cause recursive."))
      ∧ moveHandler fuel s false wpid targetId (some index) allPages
        = (s, .next (.resourceConflictError "Will cause recursive.")) := by
  have hw := recursiveWalk_conflict allPages movingPage (dictGet_id hkeys) n fuel
    parentPage m hanc hm hfuel
  have hc : recursiveCheck fuel allPages movingPage (some parentPage)
        = .error (.api (.resourceConflictError "Will cause recursive.")) := by
    simpa [recursiveCheck] using hw
  refine ⟨hc, ?_⟩
  have hi : ¬ index < 0 := by omega
  simp [moveHandler, moveValidate, moveParams, hi, hlook, hc]

/-- The recursion check on the example of the specification, with the map
handed over: A is the parent of B, B the parent of C, and A is moved under
C. -/
theorem move_under_descendant_rejected_example :
    recursiveCheck 2 (pageDictOf storeChain "w") pageA (some chainC)
        = .error (.api (.resourceConflictError "Will cause recursive."))
      ∧ moveHandler 2 storeChain false "A" "C" (some 0) (pageDictOf storeChain "w")
        = (storeChain, .next (.resourceConflictError "Will cause recursive.")) :=
  move_under_descendant_rejected storeChain "A" "C" 0 (pageDictOf storeChain "w")
    { id := "w", content_id := "cw" } pageA chainC pageA 1 2
    (by decide) rfl rfl rfl (by decide) (by decide)

/-! ## The index bound -/

/-- The two index tests as written (lines 509 and 566), for a flat page map
handed to the step of line 539: for a request whose lookups and recursion
check pass, the stages fail with InvalidParam('index') exactly when the
parsed index is NaN, is negative, or is greater than the number of pages of
the map whose `parent_id` is the target, the moving page not counted. -/
theorem move_index_bound (fuel : Nat) (s : Store) (wpid targetId : String)
    (index : Option Int) (allPages : PageDict) (wiki : Wiki) (movingPage : WikiPage)
    (parentPage : Option WikiPage)
    (hlook : moveLookups s wpid targetId = .ok (wiki, movingPage, parentPage))
    (hcheck : recursiveCheck fuel allPages movingPage parentPage = .ok ()) :
    moveValidate fuel s false wpid targetId index allPages
        = .error (.api (.invalidParam "index"))
      ↔ (index = none ∨ ∃ i, index = some i ∧
          (i < 0 ∨ i > (((allPages.map Prod.snd).filter (fun p =>
              decide (p.parent_id = targetParentId parentPage)
                && decide (p.id ≠ movingPage.id))).length : Int))) := by
  cases index with
  | none => simp [moveValidate, moveParams]
  | some i =>
    by_cases hneg : i < 0
    · simp [moveValidate, moveParams, hneg]
    · by_cases hk : i > (((allPages.map Prod.snd).filter (fun p =>
              decide (p.parent_id = targetParentId parentPage)
                && decide (p.id ≠ movingPage.id))).length : Int)
      · have hv : moveValidate fuel s false wpid targetId (some i) allPages
            = .error (.api (.invalidParam "index")) := by
          simp only [moveValidate, moveParams, hneg, hlook, hcheck, moveList, currentChildren,
            if_pos hk, if_false, Bool.false_eq_true]
        simp only [hv, true_iff]
        exact Or.inr ⟨i, rfl, Or.inr hk⟩
      · have hv : moveValidate fuel s false wpid targetId (some i) allPages
            ≠ .error (.api (.invalidParam "index")) := by
          simp only [moveValidate, moveParams, hneg, hlook, hcheck, moveList, currentChildren,
            if_neg hk, if_false, Bool.false_eq_true]
          intro h
          cases h
        simp only [hv, false_iff]
        rintro (h | ⟨j, hj, h | h⟩)
        · cases h
        · cases hj; exact hneg h
        · cases hj; exact hk h

/-- Moving C, a root page among A, B, C, to ROOT, with the map handed over:
the other children are two, and the index 3 is refused. -/
theorem move_index_bound_example :
    moveValidate 1 storeABC false "C" "ROOT" (some 3) (pageDictOf storeABC "w")
      = .error (.api (.invalidParam "index")) :=
  (move_index_bound 1 storeABC "C" "ROOT" (some 3) (pageDictOf storeABC "w")
    { id := "w", content_id := "cw" } pageC none rfl rfl).mpr
    (Or.inr ⟨3, rfl, Or.inr (by decide)⟩)

/-! ## More on the page dictionary and the list of the move handler -/

theorem pageDictOf_eq (s : Store) (w : String)
    (hids : (s.wikipages.map (fun p => p.id)).Nodup) :
    pageDictOf s w
      = (s.wikipages.filter (fun p => decide (p.wiki_id = w))).map (fun p => (p.id, p)) := by
  unfold pageDictOf findAllPages
  exact buildPageDict_eq _ (hids.sublist ((List.filter_sublist _).map _))

theorem pageDictOf_wellKeyed (s : Store) (w : String)
    (hids : (s.wikipages.map (fun p => p.id)).Nodup) : WellKeyed (pageDictOf s w) := by
  rw [pageDictOf_eq s w hids]
  intro e he
  obtain ⟨p, _, rfl⟩ := List.mem_map.mp he
  rfl

/-- The sort of the source gives the one ascending arrangement when the ranks
are pairwise different. -/
theorem arraySort_unique (xs ys : List WikiPage) (hperm : xs.Perm ys)
    (hys : ys.Pairwise (fun a b => a.display_order < b.display_order)) :
    arraySort compareDisplayOrder xs = ys := by
  have hp : (arraySort compareDisplayOrder xs).Perm ys := (arraySort_perm _ xs).trans hperm
  have hle := arraySort_sorted xs
  have hnd : (ys.map (fun p => p.display_order)).Nodup := by
    unfold List.Nodup
    rw [List.pairwise_map]
    exact hys.imp (fun h => ne_of_lt h)
  have hnd' : ((arraySort compareDisplayOrder xs).map (fun p => p.display_order)).Nodup :=
    (List.Perm.nodup_iff (hp.map _)).mpr hnd
  unfold List.Nodup at hnd'
  rw [List.pairwise_map] at hnd'
  have hlt : (arraySort compareDisplayOrder xs).Pairwise
      (fun a b => a.display_order < b.display_order) :=
    (hle.and hnd').imp (fun h => lt_of_le_of_ne h.1 h.2)
  haveI : IsAntisymm WikiPage (fun a b => a.display_order < b.display_order) :=
    ⟨fun a b h1 h2 => absurd h1 (not_lt_of_lt h2)⟩
  exact List.eq_of_perm_of_sorted hp hlt hys

theorem moveList_ids_nodup (s : Store) (movingPage : WikiPage) (pp : Option WikiPage)
    (i : Int) (L : List WikiPage) (hids : (s.wikipages.map (fun p => p.id)).Nodup)
    (hlist : moveList (pageDictOf s movingPage.wiki_id) movingPage pp i = .ok L) :
    (L.map (fun p => p.id)).Nodup := by
  obtain ⟨hL, -⟩ := moveList_ok hlist
  have hperm : L.Perm (movingPage ::
      currentChildren (pageDictOf s movingPage.wiki_id) (targetParentId pp) movingPage) := by
    rw [hL]
    exact (arraySplice_perm _ _ _).trans (List.Perm.cons _ (arraySort_perm _ _))
  refine (List.Perm.nodup_iff (hperm.map _)).mpr ?_
  rw [List.map_cons, List.nodup_cons]
  constructor
  · intro h
    obtain ⟨q, hq, hqid⟩ := List.mem_map.mp h
    unfold currentChildren at hq
    have := (List.mem_filter.mp hq).2
    simp only [Bool.and_eq_true, decide_eq_true_eq] at this
    exact this.2 hqid
  · unfold currentChildren
    rw [pageDictOf_values s _ hids]
    exact hids.sublist (((List.filter_sublist _).trans (List.filter_sublist _)).map _)

/-! ## createWikiPage -/

/-- Under the root sentinel one call writes one page, ranked by the number of
root pages of the wiki, and one text, and calls back once. -/
theorem createWikiPage_root (next_id : Nat → String) (s : Store) (wp : NewPage)
    (hp : wp.parent_id = "") :
    ∃ page,
      (createWikiPage next_id s wp).2 = [.result page]
      ∧ (createWikiPage next_id s wp).1.wikipages = s.wikipages ++ [page]
      ∧ page.parent_id = "" ∧ page.wiki_id = wp.wiki_id
      ∧ page.display_order = countChildren s wp.wiki_id ""
      ∧ (createWikiPage next_id s wp).1.texts.length = s.texts.length + 1 := by
  refine ⟨(doCreateWikiPage next_id s wp).2, ?_⟩
  simp [createWikiPage, hp, doCreateWikiPage, countChildren]

/-- C7: under a parent page of the same wiki one call of `createWikiPage` does
not write one page record but two, with the ranks n and n + 1 (n the number
of children the parent had), and two texts, and it calls back twice: the call
`doCreateWikiPage()` of line 175 stands outside the `if` and runs as well as
the one of line 172. -/
theorem createWikiPage_nested_parent (next_id : Nat → String) (s : Store) (wp : NewPage)
    (entity : WikiPage) (hp : wp.parent_id ≠ "")
    (hl : getWikiPage s wp.parent_id = .ok entity) (hw : wp.wiki_id = entity.wiki_id) :
    ∃ page1 page2,
      (createWikiPage next_id s wp).2 = [.result page1, .result page2]
      ∧ (createWikiPage next_id s wp).1.wikipages = s.wikipages ++ [page1, page2]
      ∧ page1.parent_id = wp.parent_id ∧ page2.parent_id = wp.parent_id
      ∧ page1.wiki_id = wp.wiki_id ∧ page2.wiki_id = wp.wiki_id
      ∧ page1.display_order = countChildren s wp.wiki_id wp.parent_id
      ∧ page2.display_order = countChildren s wp.wiki_id wp.parent_id + 1
      ∧ (createWikiPage next_id s wp).1.texts.length = s.texts.length + 2 := by
  refine ⟨(doCreateWikiPage next_id s wp).2,
    (doCreateWikiPage next_id (doCreateWikiPage next_id s wp).1 wp).2, ?_⟩
  simp [createWikiPage, hp, hl, hw, doCreateWikiPage, countChildren, List.filter_append]

/-- One page created under the root page A of the store with the root pages
A, B, C. -/
theorem createWikiPage_nested_parent_witness :
    ∃ page1 page2,
      (createWikiPage exampleNextId storeABC
          { wiki_id := "w", parent_id := "A", content := "text" }).2
        = [.result page1, .result page2]
      ∧ (createWikiPage exampleNextId storeABC
          { wiki_id := "w", parent_id := "A", content := "text" }).1.wikipages
        = storeABC.wikipages ++ [page1, page2]
      ∧ page1.parent_id = "A" ∧ page2.parent_id = "A"
      ∧ page1.wiki_id = "w" ∧ page2.wiki_id = "w"
      ∧ page1.display_order = countChildren storeABC "w" "A"
      ∧ page2.display_order = countChildren storeABC "w" "A" + 1
      ∧ (createWikiPage exampleNextId storeABC
          { wiki_id := "w", parent_id := "A", content := "text" }).1.texts.length
        = storeABC.texts.length + 2 :=
  createWikiPage_nested_parent exampleNextId storeABC
    { wiki_id := "w", parent_id := "A", content := "text" } pageA (by decide) rfl rfl

/-- C8: when `parent_id` names a page of another wiki, `createWikiPage` does
report InvalidParam('parent_id'), but it also writes a text and a page record
under that parent and then calls back a second time with the created page:
the call `doCreateWikiPage()` of line 175 runs whatever the lookup answers. -/
theorem createWikiPage_foreign_parent (next_id : Nat → String) (s : Store) (wp : NewPage)
    (entity : WikiPage) (hp : wp.parent_id ≠ "")
    (hl : getWikiPage s wp.parent_id = .ok entity) (hw : wp.wiki_id ≠ entity.wiki_id) :
    ∃ page text,
      (createWikiPage next_id s wp).2 = [.error (.invalidParam "parent_id"), .result page]
      ∧ (createWikiPage next_id s wp).1.wikipages = s.wikipages ++ [page]
      ∧ (createWikiPage next_id s wp).1.texts = s.texts ++ [text]
      ∧ page.wiki_id = wp.wiki_id ∧ page.parent_id = wp.parent_id
      ∧ text.ref_id = page.id := by
  refine ⟨(doCreateWikiPage next_id s wp).2,
    { id := next_id (s.idCounter + 1), ref_id := next_id s.idCounter, value := wp.content },
    ?_⟩
  simp [createWikiPage, hp, hl, hw, doCreateWikiPage]

/-- A page of wiki `v` created under the page A of wiki `w`. -/
theorem createWikiPage_foreign_parent_witness :
    ∃ page text,
      (createWikiPage exampleNextId storeABC
          { wiki_id := "v", parent_id := "A", content := "text" }).2
        = [.error (.invalidParam "parent_id"), .result page]
      ∧ (createWikiPage exampleNextId storeABC
          { wiki_id := "v", parent_id := "A", content := "text" }).1.wikipages
        = storeABC.wikipages ++ [page]
      ∧ (createWikiPage exampleNextId storeABC
          { wiki_id := "v", parent_id := "A", content := "text" }).1.texts
        = storeABC.texts ++ [text]
      ∧ page.wiki_id = "v" ∧ page.parent_id = "A"
      ∧ text.ref_id = page.id :=
  createWikiPage_foreign_parent exampleNextId storeABC
    { wiki_id := "v", parent_id := "A", content := "text" } pageA (by decide) rfl (by decide)

/-! ## The delete handler -/

theorem find_wiki_id {wikis : List Wiki} {id : String} {w : Wiki}
    (h : wikis.find? (fun w => decide (w.id = id)) = some w) : w.id = id := by
  have hw := List.find?_some h
  simpa using hw

/-- C9: for an existing wiki id the delete handler fails with the resource
conflict 'Wiki is not empty.' and leaves the store as it was when the wiki
owns a page; when it owns none the handler sends the id back, and afterwards
no wiki record has that id and no text has it as `ref_id`. For an id that no
wiki has the handler fails with NotFound('Wiki'). -/
theorem deleteWiki_guard (s : Store) (id : String) :
    ((∃ w ∈ s.wikis, w.id = id) →
        ((∃ p ∈ s.wikipages, p.wiki_id = id) →
          deleteWiki s false id = (s, .next (.resourceConflictError "Wiki is not empty.")))
        ∧ ((∀ p ∈ s.wikipages, p.wiki_id ≠ id) →
          (deleteWiki s false id).2 = .send id
            ∧ (∀ w ∈ (deleteWiki s false id).1.wikis, w.id ≠ id)
            ∧ (∀ t ∈ (deleteWiki s false id).1.texts, t.ref_id ≠ id)))
      ∧ ((∀ w ∈ s.wikis, w.id ≠ id) →
          deleteWiki s false id = (s, .next (.notFound "Wiki"))) := by
  constructor
  · rintro ⟨w0, hw0, hid0⟩
    cases hf : s.wikis.find? (fun w => decide (w.id = id)) with
    | none =>
      rw [List.find?_eq_none] at hf
      exact absurd (by simpa using hid0) (hf w0 hw0)
    | some wiki =>
      have hwid : wiki.id = id := find_wiki_id hf
      constructor
      · rintro ⟨p, hp, hpw⟩
        have hpos : countPages s wiki.id > 0 := by
          unfold countPages
          apply List.length_pos_of_mem (a := p)
          simp [List.mem_filter, hp, hpw, hwid]
        simp [deleteWiki, hf, hpos]
      · intro hnone
        have hzero : ¬ countPages s wiki.id > 0 := by
          unfold countPages
          have hnil : s.wikipages.filter (fun p => decide (p.wiki_id = wiki.id)) = [] := by
            rw [List.filter_eq_nil_iff]
            intro p hp
            simpa [hwid] using hnone p hp
          simp [hnil]
        simp only [deleteWiki, hf, hzero, if_false, Bool.false_eq_true]
        refine ⟨trivial, ?_, ?_⟩
        · intro w hw
          simp only [List.mem_filter] at hw
          simpa [hwid] using hw.2
        · intro t ht
          simp only [List.mem_filter] at ht
          simpa using ht.2
  · intro hall
    have hf : s.wikis.find? (fun w => decide (w.id = id)) = none := by
      rw [List.find?_eq_none]
      intro w hw
      simpa using hall w hw
    simp [deleteWiki, hf]

/-- The three cases on examples: wiki `w` with three pages, wiki `w` without
pages, and the id `x` that no wiki has. -/
theorem deleteWiki_guard_witness :
    deleteWiki storeABC false "w"
        = (storeABC, .next (.resourceConflictError "Wiki is not empty."))
      ∧ ((deleteWiki storeNoPages false "w").2 = .send "w"
        ∧ (∀ w ∈ (deleteWiki storeNoPages false "w").1.wikis, w.id ≠ "w")
        ∧ (∀ t ∈ (deleteWiki storeNoPages false "w").1.texts, t.ref_id ≠ "w"))
      ∧ deleteWiki storeABC false "x" = (storeABC, .next (.notFound "Wiki")) :=
  ⟨((deleteWiki_guard storeABC "w").1 ⟨{ id := "w", content_id := "cw" }, by decide, rfl⟩).1
      ⟨pageA, by decide, rfl⟩,
    ((deleteWiki_guard storeNoPages "w").1 ⟨{ id := "w", content_id := "cw" }, by decide, rfl⟩).2
      (by decide),
    (deleteWiki_guard storeABC "x").2 (by decide)⟩

/-! ## getWikiPages and its callback -/

/-- With `returnAsDict` set the function computes the dictionary of the pages
of the wiki, as its return value. -/
theorem getWikiPages_returned_dict (fuel : Nat) (s : Store) (wiki_id : String) :
    (getWikiPages fuel s wiki_id (some true)).returned = .ok (.dict (pageDictOf s wiki_id)) :=
  rfl

/-- C11: `getWikiPages` does not deliver its result. Whatever the wiki id and
the mode, the function never calls the callback of its caller: where the
claim has one call `callback(null, value)`, lines 115 and 119 have `return`
statements, whose values go to `WikiPage.findAll` and are dropped. -/
theorem getWikiPages_never_calls_back (fuel : Nat) (s : Store) (wiki_id : String)
    (returnAsDict : Option Bool) :
    (getWikiPages fuel s wiki_id returnAsDict).calls = [] := by
  unfold getWikiPages
  simp only
  split
  · rfl
  · split <;> rfl

/-- In the move handler the waterfall stops at the step of line 537: once the
parameter test and the lookups have passed, the handler answers neither with
`next` nor with `res.send`, and the store is as it was. -/
theorem moveRequest_no_response (fuel : Nat) (s : Store) (wpid targetId : String)
    (index : Option Int) (i : Int) (wiki : Wiki) (movingPage : WikiPage)
    (parentPage : Option WikiPage)
    (hparams : moveParams false index = .ok i)
    (hlook : moveLookups s wpid targetId = .ok (wiki, movingPage, parentPage)) :
    moveRequest fuel s false wpid targetId index = (s, none) := by
  unfold moveRequest
  simp only [hparams, hlook]
  rfl

/-- The example of the specification, C moved to ROOT at index 0 among the
root pages A, B, C: the request gets no answer. -/
theorem moveRequest_root_example :
    moveRequest 1 storeABC false "C" "ROOT" (some 0) = (storeABC, none) :=
  moveRequest_no_response 1 storeABC "C" "ROOT" (some 0) 0 { id := "w", content_id := "cw" }
    pageC none rfl rfl

/-! ## The partition step of treeIterate -/

theorem treeIterate_eq_partitionStep (fuel : Nat) (nodes : PageDict) (root : TreeRoot) :
    treeIterate (fuel + 1) nodes root
      = match partitionStep nodes root with
        | .error e => .error e
        | .ok (nodes, root) =>
          match root.getChildren with
          | none => .error .typeError
          | some children =>
            if children.length > 0 then
              match (arrayKeys children).foldlM
                  (fun ns ch => (treeIterate fuel ns (.string ch)).map Prod.fst) nodes with
              | .error e => .error e
              | .ok nodes =>
                .ok (nodes, root.setChildren (arraySort compareDisplayOrder children))
            else .ok (nodes, root) := by
  rw [treeIterate]
  unfold partitionStep
  simp only
  cases collectChildren root.getId nodes (root.setChildren []) [] with
  | error e => rfl
  | ok r => rfl

theorem dictDelete_of_not_mem (nodes : PageDict) (k : String)
    (h : ∀ e ∈ nodes, e.1 ≠ k) : dictDelete nodes k = nodes := by
  unfold dictDelete
  rw [List.filter_eq_self]
  intro e he
  simpa using h e he

theorem foldl_dictDelete_of_not_mem (ks : List String) (nodes : PageDict)
    (h : ∀ e ∈ nodes, e.1 ∉ ks) : ks.foldl dictDelete nodes = nodes := by
  induction ks with
  | nil => rfl
  | cons k ks ih =>
    rw [List.foldl_cons, dictDelete_of_not_mem nodes k
      (fun e he hk => h e he (by rw [hk]; exact List.mem_cons_self _ _))]
    exact ih (fun e he hk => h e he (List.mem_cons_of_mem _ hk))

theorem arrayKeys_subset {α β : Type} (xs : List α) (ys : List β)
    (h : xs.length ≤ ys.length) : ∀ k ∈ arrayKeys xs, k ∈ arrayKeys ys := by
  intro k hk
  unfold arrayKeys at hk ⊢
  obtain ⟨i, hi, rfl⟩ := List.mem_map.mp hk
  exact List.mem_map.mpr ⟨i, List.mem_range.mpr (lt_of_lt_of_le (List.mem_range.mp hi) h), rfl⟩

/-- C12: the partition step does not remove the attached nodes, and the call
does not end without error. For every map with a page under `root` whose
keys are not array indices (as the ids of `next_id` are not), the step
attaches the pages with that `parent_id` and leaves the working map as it
was, so that every attached node is still a key: `delete nodes[key]` is given
the indices of `removes`, not the ids in it. The call then throws a
TypeError in the first recursive call instead of returning. -/
theorem treeIterate_partition_keeps_attached (fuel : Nat) (nodes : PageDict) (rid : String)
    (c : Option (List WikiPage))
    (hchild : ∃ e ∈ nodes, e.2.parent_id = rid)
    (hkeys : ∀ e ∈ nodes, e.1 ∉ arrayKeys nodes) :
    partitionStep nodes (.object rid c)
        = .ok (nodes, .object rid
            (some ((nodes.filter (fun e => decide (e.2.parent_id = rid))).map Prod.snd)))
      ∧ (nodes.filter (fun e => decide (e.2.parent_id = rid))).map Prod.snd ≠ []
      ∧ treeIterate (fuel + 2) nodes (.object rid c) = .error .typeError := by
  obtain ⟨e, he, hp⟩ := hchild
  have hne : (nodes.filter (fun e => decide (e.2.parent_id = rid))).map Prod.snd ≠ [] := by
    intro h0
    have hmem : e ∈ nodes.filter (fun e => decide (e.2.parent_id = rid)) := by
      simp [List.mem_filter, he, hp]
    rw [List.map_eq_nil_iff] at h0
    rw [h0] at hmem
    simp at hmem
  have hstep : partitionStep nodes (.object rid c)
        = .ok (nodes, .object rid
            (some ((nodes.filter (fun e => decide (e.2.parent_id = rid))).map Prod.snd))) := by
    unfold partitionStep
    simp only [TreeRoot.getId, TreeRoot.setChildren]
    have hcollect := collectChildren_object rid nodes [] []
    simp only [List.nil_append] at hcollect
    rw [hcollect]
    simp only
    rw [foldl_dictDelete_of_not_mem]
    intro e he hk
    refine hkeys e he (arrayKeys_subset _ nodes ?_ _ hk)
    rw [List.length_map]
    exact List.length_filter_le _ _
  refine ⟨hstep, hne, ?_⟩
  rw [treeIterate_eq_partitionStep, hstep]
  simp only [TreeRoot.getChildren]
  cases hc : (nodes.filter (fun e => decide (e.2.parent_id = rid))).map Prod.snd with
  | nil => exact absurd hc hne
  | cons x xs =>
    obtain ⟨ks, hks⟩ := arrayKeys_cons x xs
    simp [hks, List.foldlM, treeIterate_string, Except.map, bind, Except.bind]

/-- The map with the single root page A: after the step A is attached and is
still a key, and the call throws. -/
theorem treeIterate_partition_keeps_attached_witness :
    partitionStep [("A", pageA)] (.object "" none)
        = .ok ([("A", pageA)], .object "" (some [pageA]))
      ∧ [pageA] ≠ []
      ∧ treeIterate 2 [("A", pageA)] (.object "" none) = .error .typeError :=
  treeIterate_partition_keeps_attached 0 [("A", pageA)] "" none
    ⟨("A", pageA), by simp, rfl⟩ (by decide)

/-- The call of `treeIterate` on an object does end for every map, cyclic or
not, given two units of fuel: with a TypeError when a page is under `root`,
and otherwise with no child attached and the map as it was. -/
theorem treeIterate_ends (fuel : Nat) (nodes : PageDict) (rid : String)
    (c : Option (List WikiPage)) :
    treeIterate (fuel + 2) nodes (.object rid c) = .error .typeError
      ∨ treeIterate (fuel + 2) nodes (.object rid c) = .ok (nodes, .object rid (some [])) := by
  by_cases h : ∃ e ∈ nodes, e.2.parent_id = rid
  · left
    obtain ⟨e, he, hp⟩ := h
    have hne : (nodes.filter (fun e => decide (e.2.parent_id = rid))).map Prod.snd ≠ [] := by
      intro h0
      have hmem : e ∈ nodes.filter (fun e => decide (e.2.parent_id = rid)) := by
        simp [List.mem_filter, he, hp]
      rw [List.map_eq_nil_iff] at h0
      rw [h0] at hmem
      simp at hmem
    rw [treeIterate]
    simp only [TreeRoot.getId, TreeRoot.setChildren]
    have hcollect := collectChildren_object rid nodes [] []
    simp only [List.nil_append] at hcollect
    rw [hcollect]
    simp only [TreeRoot.getChildren]
    cases hc : (nodes.filter (fun e => decide (e.2.parent_id = rid))).map Prod.snd with
    | nil => exact absurd hc hne
    | cons x xs =>
      obtain ⟨ks, hks⟩ := arrayKeys_cons x xs
      simp [hks, List.foldlM, treeIterate_string, Except.map, bind, Except.bind]
  · right
    exact treeIterate_no_child (fuel + 1) nodes rid c
      (fun e he hp => h ⟨e, he, hp⟩)

/-! ## The move handler as a whole -/

/-- The whole move handler never writes to the store, whatever the request. -/
theorem moveRequest_store (fuel : Nat) (s : Store) (forbidden : Bool) (wpid targetId : String)
    (index : Option Int) :
    (moveRequest fuel s forbidden wpid targetId index).1 = s := by
  unfold moveRequest
  split
  · rfl
  · split
    · rfl
    · split
      · rfl
      · rfl
      · exact moveHandler_store _ _ _ _ _ _ _

/-- No move request is answered with `res.send`: none succeeds. -/
theorem moveRequest_never_sends (fuel : Nat) (s : Store) (forbidden : Bool)
    (wpid targetId : String) (index : Option Int) (body : WikiPage) :
    (moveRequest fuel s forbidden wpid targetId index).2 ≠ some (.send body) := by
  unfold moveRequest
  split
  · simp
  · split
    · simp
    · rw [show (getWikiPages fuel s _ (some true)).calls.head? = none from rfl]
      simp

/-- C3: rank density is preserved by the move handler. For every store in
which every sibling group has the ranks 0, ..., n-1, each once, and for every
move request, whatever its page, target and index, every sibling group has
such ranks in the store after the request, the target's group and the group
of the old parent among them: the handler changes no `display_order` and no
`parent_id`. -/
theorem moveRequest_keeps_density (fuel : Nat) (s : Store) (forbidden : Bool)
    (wpid targetId : String) (index : Option Int)
    (hdense : ∀ w par, DenseGroup s.wikipages w par) :
    ∀ w par,
      DenseGroup (moveRequest fuel s forbidden wpid targetId index).1.wikipages w par := by
  rw [moveRequest_store]
  exact hdense

/-- The request to move A under C at index 0 among the root pages A(0), B(1),
C(2): the root group, which A was to leave, and the group of C. -/
theorem moveRequest_keeps_density_witness :
    DenseGroup (moveRequest 1 storeABC false "A" "C" (some 0)).1.wikipages "w" ""
      ∧ DenseGroup (moveRequest 1 storeABC false "A" "C" (some 0)).1.wikipages "w" "C" :=
  ⟨moveRequest_keeps_density 1 storeABC false "A" "C" (some 0)
      (denseGroup_of_allDense (by decide)) "w" "",
    moveRequest_keeps_density 1 storeABC false "A" "C" (some 0)
      (denseGroup_of_allDense (by decide)) "w" "C"⟩

/-- C4: no cycles is preserved by the move handler. For every store in which
the parent chain of every page reaches the root sentinel within as many links
as there are pages, and for every move request, the store after the request
has that property for every page; the request whose target is the moving page
itself is one of them. -/
theorem moveRequest_keeps_noCycles (fuel : Nat) (s : Store) (forbidden : Bool)
    (wpid targetId : String) (index : Option Int)
    (h : NoCycles s.wikipages) :
    NoCycles (moveRequest fuel s forbidden wpid targetId index).1.wikipages := by
  rw [moveRequest_store]
  exact h

/-- The request to move the single root page A under itself at index 0. -/
theorem moveRequest_keeps_noCycles_witness :
    NoCycles (moveRequest 1 storeSingle false "A" "A" (some 0)).1.wikipages :=
  moveRequest_keeps_noCycles 1 storeSingle false "A" "A" (some 0) (by decide)

/-- C5: the cycle rejection does not happen. On the example of the claim (A
parent of B parent of C, A moved under C at index 0) the walk of lines 543-549
would end in the conflict 'Will cause recursive.' on the flat map of the
wiki, but `getWikiPages` never calls the callback of the waterfall, the step
of line 539 does not run, and the handler calls neither `next` nor
`res.send`; the store is left as it was. -/
theorem move_under_descendant_unanswered :
    recursiveCheck 2 (pageDictOf storeChain "w") pageA (some chainC)
        = .error (.api (.resourceConflictError "Will cause recursive."))
      ∧ (getWikiPages 2 storeChain "w" (some true)).calls = []
      ∧ moveRequest 2 storeChain false "A" "C" (some 0) = (storeChain, none) :=
  ⟨rfl, rfl, rfl⟩

/-- C6: the index bound is not enforced. For a request whose lookups pass,
the handler fails with InvalidParam('index') exactly when the parsed index is
NaN or negative (line 509); for every index from 0 on, also one greater than
the number k of the other children of the target, the handler gives no
answer at all, since the test of line 566 is never reached. -/
theorem moveRequest_index_error (fuel : Nat) (s : Store) (wpid targetId : String)
    (index : Option Int) (wiki : Wiki) (movingPage : WikiPage) (parentPage : Option WikiPage)
    (hlook : moveLookups s wpid targetId = .ok (wiki, movingPage, parentPage)) :
    (moveRequest fuel s false wpid targetId index
        = (s, some (.next (.invalidParam "index")))
      ↔ (index = none ∨ ∃ i, index = some i ∧ i < 0))
    ∧ ((∃ i, index = some i ∧ 0 ≤ i) →
        moveRequest fuel s false wpid targetId index = (s, none)) := by
  cases index with
  | none => simp [moveRequest, moveParams]
  | some i =>
    by_cases hneg : i < 0
    · have hn : ¬ 0 ≤ i := by omega
      simp [moveRequest, moveParams, hneg, hn]
    · have hp : moveParams false (some i) = .ok i := by simp [moveParams, hneg]
      have hr := moveRequest_no_response fuel s wpid targetId (some i) i wiki movingPage
        parentPage hp hlook
      rw [hr]
      simp [hneg]

/-- Moving C, a root page among A, B, C, to ROOT at index 3, where k is 2: no
InvalidParam('index'), no answer. -/
theorem moveRequest_index_error_witness :
    moveRequest 1 storeABC false "C" "ROOT" (some 3) = (storeABC, none) :=
  (moveRequest_index_error 1 storeABC "C" "ROOT" (some 3) { id := "w", content_id := "cw" }
    pageC none rfl).2 ⟨3, rfl, by decide⟩

/-- C10: a move request can be repeated. For every store and every move
request, applying the same request to the store that its first application
leaves gives the same answer and the same store as the first application, so
that every `parent_id` and `display_order` is what it was after the first
application, and a second application succeeds if the first did. -/
theorem moveRequest_repeat (fuel : Nat) (s : Store) (forbidden : Bool)
    (wpid targetId : String) (index : Option Int) :
    moveRequest fuel (moveRequest fuel s forbidden wpid targetId index).1
        forbidden wpid targetId index
      = moveRequest fuel s forbidden wpid targetId index := by
  rw [moveRequest_store]

end WikiApi
